import Mathlib

/-!
# Verification of the tabular-normalization logic of `app.py`

Shallow embedding of the normalization routines of the PDF-to-Excel
converter (`src/app.py`): the visual-grid table cleanup
(`process_visual_grid`), the raw-text/CSV path (`process_raw_text`,
including its start-marker search and its use of `pandas.read_csv`
with `skipinitialspace=True` and `on_bad_lines='skip'`), and the
caller's empty-result check.

Python strings are embedded as `List Char`; a table cell is
`Option (List Char)` (`none` embeds Python `None` / pandas `NaN`).
-/

set_option autoImplicit false

abbrev Str := List Char

abbrev Cell := Option Str

/-- A pandas `DataFrame` as the app observes it: optional explicit column
labels (`none` embeds the default integer `RangeIndex`) and a list of rows.
The integer row index is not observed by the app and is not modelled. -/
structure DataFrame where
  columns : Option (List Cell)
  data : List (List Cell)
deriving DecidableEq, Repr

/-- `re.sub(r'\n', ' ', s)`: the single-character pattern `\n` makes this a
character-wise map, which is how `df.replace(r'\n', ' ', regex=True)` acts
on each string value (pandas performs partial-match substitution). -/
def replaceNl (s : Str) : Str :=
  s.map fun c => if c = '\n' then ' ' else c

/-- Cleaning of one cell by `df.replace(r'\n', ' ', regex=True)`:
string values get newlines replaced, `None`/`NaN` cells are untouched. -/
def cleanCell : Cell → Cell :=
  Option.map replaceNl

/-- Width of the `pd.DataFrame(all_rows)` built from possibly-jagged rows:
the length of the longest row. -/
def tableWidth (rows : List (List Cell)) : Nat :=
  rows.foldr (fun r w => max r.length w) 0

/-- `pd.DataFrame` pads a short row with `NaN` cells up to the table width. -/
def padRow (w : Nat) (r : List Cell) : List Cell :=
  r ++ List.replicate (w - r.length) none

/-- `process_visual_grid` (src/app.py lines 41-67) after the extraction
loop has produced `all_rows`: returns `None` when no rows were extracted;
otherwise builds `pd.DataFrame(all_rows)`, optionally promotes the first
row to the column labels (`df.columns = df.iloc[0]; df = df[1:]`), and
optionally cleans newlines out of the data cells
(`df = df.replace(r'\n', ' ', regex=True)`, which leaves the column
labels untouched). PDF extraction itself is an external collaborator;
its output `all_rows` is this function's input. -/
def process_visual_grid (header_row clean_newlines : Bool)
    (all_rows : List (List Cell)) : Option DataFrame :=
  if all_rows.isEmpty then none
  else
    let w := tableWidth all_rows
    let padded := all_rows.map (padRow w)
    let cols : Option (List Cell) := if header_row then some (padded.headD []) else none
    let body : List (List Cell) := if header_row then padded.tail else padded
    let body2 := if clean_newlines then body.map (List.map cleanCell) else body
    some ⟨cols, body2⟩

/-- Python `text.find(marker)`: index of the first occurrence of `marker`
as a literal substring of `text`, `none` when there is none. -/
def findSub (m : Str) : Str → Option Nat
  | [] => if m.isPrefixOf ([] : Str) then some 0 else none
  | c :: ts =>
      if m.isPrefixOf (c :: ts) then some 0
      else (findSub m ts).map (· + 1)

/-- The start-keyword filter of `process_raw_text` (src/app.py lines 80-86):
`if start_key: idx = full_text.find(start_key); ...`. Returns the possibly
shortened text together with the flag telling whether the non-fatal
`st.warning` ("Keyword not found. Using full text.") was emitted. -/
def locateStart (text : Str) (marker : Option Str) : Str × Bool :=
  match marker with
  | none => (text, false)
  | some m =>
      if m = [] then (text, false)
      else
        match findSub m text with
        | some i => (text.drop i, false)
        | none => (text, true)

/-- Characters stripped by Python `str.strip()` (the ASCII whitespace the
app can actually encounter; the full Unicode whitespace set is not
modelled). -/
def isPySpace (c : Char) : Bool :=
  c = ' ' || c = '\t' || c = '\n' || c = '\r' || c = '\x0b' || c = '\x0c'

/-- Python `s.strip()`. -/
def trim (s : Str) : Str :=
  ((s.dropWhile isPySpace).reverse.dropWhile isPySpace).reverse

/-- States of the CSV tokenizer underlying `pd.read_csv`. -/
inductive CsvSt
  | startRecord
  | startField
  | inField
  | inQuoted
  | quoteInQuoted
deriving DecidableEq, Repr

/-- The CSV tokenizer of `pd.read_csv(..., skipinitialspace=True)` as a
character state machine: `tok sep quote st field record input` consumes
`input` with `field` the field read so far and `record` the fields of the
current record, and returns the list of completed records. Blank lines are
skipped (`skip_blank_lines=True`); spaces at the start of a field are
skipped (`skipinitialspace=True`); a field starting with `quote` runs to
the matching quote and may contain `sep` and newlines; a doubled quote
inside a quoted field is a literal quote; text after a closing quote is
appended to the field (non-strict mode); end of input closes any pending
field and record. -/
def tok (sep quote : Char) : CsvSt → Str → List Str → Str → List (List Str)
  | .startRecord, _, _, [] => []
  | .startField, field, record, [] => [record ++ [field]]
  | .inField, field, record, [] => [record ++ [field]]
  | .inQuoted, field, record, [] => [record ++ [field]]
  | .quoteInQuoted, field, record, [] => [record ++ [field]]
  | .startRecord, _, _, c :: cs =>
      if c = '\n' then tok sep quote .startRecord [] [] cs
      else if c = ' ' then tok sep quote .startField [] [] cs
      else if c = quote then tok sep quote .inQuoted [] [] cs
      else if c = sep then tok sep quote .startField [] [[]] cs
      else tok sep quote .inField [c] [] cs
  | .startField, field, record, c :: cs =>
      if c = ' ' then tok sep quote .startField field record cs
      else if c = quote then tok sep quote .inQuoted field record cs
      else if c = sep then tok sep quote .startField [] (record ++ [field]) cs
      else if c = '\n' then (record ++ [field]) :: tok sep quote .startRecord [] [] cs
      else tok sep quote .inField (field ++ [c]) record cs
  | .inField, field, record, c :: cs =>
      if c = sep then tok sep quote .startField [] (record ++ [field]) cs
      else if c = '\n' then (record ++ [field]) :: tok sep quote .startRecord [] [] cs
      else tok sep quote .inField (field ++ [c]) record cs
  | .inQuoted, field, record, c :: cs =>
      if c = quote then tok sep quote .quoteInQuoted field record cs
      else tok sep quote .inQuoted (field ++ [c]) record cs
  | .quoteInQuoted, field, record, c :: cs =>
      if c = quote then tok sep quote .inQuoted (field ++ [quote]) record cs
      else if c = sep then tok sep quote .startField [] (record ++ [field]) cs
      else if c = '\n' then (record ++ [field]) :: tok sep quote .startRecord [] [] cs
      else tok sep quote .inField (field ++ [c]) record cs

/-- Tokenize a whole text into records. -/
def parseRecords (sep quote : Char) (text : Str) : List (List Str) :=
  tok sep quote .startRecord [] [] text

/-- A record padded with `NaN` cells on the right up to width `w`, as the
pandas tokenizer's missing-trailing-delimiter handling pads every record
shorter than the expected field count. -/
def fitRow (w : Nat) (r : List Str) : List Cell :=
  r.map some ++ List.replicate (w - r.length) none

/-- The bad-line handling of `pd.read_csv(..., on_bad_lines='skip')` for
the records after the first data record: the expected field count `w` is
fixed by then, a record with more than `w` fields is a bad line and is
skipped, parsing continuing with the rest; the other records are kept in
order (and padded to `w` by `fitRow` downstream). -/
def keepRows (w : Nat) : List (List Str) → List (List Str)
  | [] => []
  | r :: rs =>
      if w < r.length then keepRows w rs
      else r :: keepRows w rs

/-- The data rows produced by `pd.read_csv(..., on_bad_lines='skip')`
from a header of `n` fields and the data records. The tokenizer exempts
the first data record from the bad-line check and sets the expected
field count from it: `w = max n first.length` (a first record narrower
than the header is padded up to the header width; a wider one raises the
expected count). When `w > n`, the extra `w - n` leading columns form
the implicit row index (the documented index-columns-and-trailing-
delimiters inference) and are not data cells; the header names label the
remaining `n` columns. Every later record wider than `w` is skipped;
the rest are padded to `w` and kept in order. -/
def buildRows (n : Nat) : List (List Str) → List (List Cell)
  | [] => []
  | first :: rs =>
      (first :: keepRows (max n first.length) rs).map
        fun r => (fitRow (max n first.length) r).drop (max n first.length - n)

/-- `pd.read_csv(io.StringIO(text), sep=sep, quotechar=quote,
skipinitialspace=True, on_bad_lines='skip')` as the app observes it:
`none` embeds the `EmptyDataError` raised on input with no records (the
app catches it and returns `None`); otherwise the first record becomes
the column labels and the remaining records the data rows per
`buildRows` (the implicit row index, when inferred, is not part of the
data: the app's `replace` acts on values and its export drops the
index). Not modelled (not observed by any property checked here): dtype
inference (cells stay text), conversion of empty fields to `NaN`, and
duplicate-header mangling. -/
def read_csv (sep quote : Char) (text : Str) : Option DataFrame :=
  match parseRecords sep quote text with
  | [] => none
  | header :: rest =>
      some ⟨some (header.map some), buildRows header.length rest⟩

/-- `sep_map.get(sep_char, ",")` (src/app.py lines 91-92): resolve the UI
separator label to the actual character, defaulting to comma. -/
def sep_map (label : Str) : Char :=
  if label = ", (Comma)".toList then ','
  else if label = "; (Semicolon)".toList then ';'
  else if label = "| (Pipe)".toList then '|'
  else if label = "\\t (Tab)".toList then '\t'
  else ','

/-- `process_raw_text` (src/app.py lines 69-109) after text extraction has
produced `full_text`: apply the start-keyword filter, parse with
`read_csv`, then clean the column labels
(`df.columns.str.replace('\n', ' ').str.strip()`) and the data cells
(`df.replace(r'\n', ' ', regex=True)`, no stripping). The second
component is the start-keyword warning flag; a `read_csv` failure is
caught by the `except` branch and returned as `none`. -/
def process_raw_text (sep_label : Str) (quote : Char) (start_key : Option Str)
    (full_text : Str) : Option DataFrame × Bool :=
  let lr := locateStart full_text start_key
  let sep := sep_map sep_label
  match read_csv sep quote lr.1 with
  | none => (none, lr.2)
  | some df =>
      (some ⟨df.columns.map (List.map (Option.map fun s => trim (replaceNl s))),
             df.data.map (List.map (Option.map replaceNl))⟩, lr.2)

/-- The caller's output check (src/app.py lines 127 and 144-145):
`if df_result is not None and not df_result.empty` — the EmptyResult
warning ("No data could be extracted...") is shown when the result is
`None` or has no data rows. (pandas `.empty` is also true for a zero-
column frame with rows; no path checked here produces one.) -/
def showsEmptyWarning : Option DataFrame → Bool
  | none => true
  | some df => df.data.isEmpty

/-! ## Helper lemmas -/

theorem not_mem_replaceNl (s : Str) : '\n' ∉ replaceNl s := by
  intro hmem
  rcases List.mem_map.mp hmem with ⟨c, _, hc⟩
  by_cases h : c = '\n' <;> simp [h] at hc

theorem replaceNl_length (s : Str) : (replaceNl s).length = s.length :=
  List.length_map s _

theorem findSub_isPrefixOf {m : Str} : ∀ {t : Str} {i : Nat},
    findSub m t = some i → m.isPrefixOf (t.drop i) = true := by
  intro t
  induction t with
  | nil =>
      intro i h
      unfold findSub at h
      split at h
      · rename_i hp
        simp only [Option.some.injEq] at h
        simpa [← h] using hp
      · exact absurd h (by simp)
  | cons c ts ih =>
      intro i h
      unfold findSub at h
      split at h
      · rename_i hp
        simp only [Option.some.injEq] at h
        simpa [← h] using hp
      · rcases Option.map_eq_some'.mp h with ⟨j, hj, hji⟩
        subst hji
        simpa [List.drop_succ_cons] using ih hj

theorem findSub_min {m : Str} : ∀ {t : Str} {i : Nat},
    findSub m t = some i → ∀ j, j < i → m.isPrefixOf (t.drop j) = false := by
  intro t
  induction t with
  | nil =>
      intro i h j hj
      unfold findSub at h
      split at h
      · simp only [Option.some.injEq] at h
        omega
      · exact absurd h (by simp)
  | cons c ts ih =>
      intro i h j hj
      unfold findSub at h
      split at h
      · simp only [Option.some.injEq] at h
        omega
      · rename_i hp
        rcases Option.map_eq_some'.mp h with ⟨k, hk, hki⟩
        subst hki
        cases j with
        | zero => simpa using Bool.eq_false_iff.mpr hp
        | succ j' => simpa [List.drop_succ_cons] using ih hk j' (by omega)

theorem findSub_none {m : Str} : ∀ {t : Str},
    findSub m t = none → ∀ j, m.isPrefixOf (t.drop j) = false := by
  intro t
  induction t with
  | nil =>
      intro h j
      unfold findSub at h
      split at h
      · exact absurd h (by simp)
      · rename_i hp
        simpa using Bool.eq_false_iff.mpr hp
  | cons c ts ih =>
      intro h j
      unfold findSub at h
      split at h
      · exact absurd h (by simp)
      · rename_i hp
        have hts : findSub m ts = none := by
          cases hx : findSub m ts with
          | none => rfl
          | some k => rw [hx] at h; exact absurd h (by simp)
        cases j with
        | zero => simpa using Bool.eq_false_iff.mpr hp
        | succ j' => simpa [List.drop_succ_cons] using ih hts j'

theorem findSub_of_isPrefixOf {m t : Str} (h : m.isPrefixOf t = true) :
    findSub m t = some 0 := by
  cases t with
  | nil => unfold findSub; simp [h]
  | cons c ts => unfold findSub; simp [h]

theorem infix_of_prefix_drop {m t : Str} (i : Nat) (h : m <+: t.drop i) :
    m <:+: t :=
  h.isInfix.trans (List.drop_suffix i t).isInfix

theorem prefix_drop_of_infix {m t : Str} (h : m <:+: t) :
    ∃ i, m <+: t.drop i := by
  rcases h with ⟨s, r, hsr⟩
  refine ⟨s.length, r, ?_⟩
  rw [← hsr, List.append_assoc, List.drop_left]

theorem keepRows_eq_filter (w : Nat) : ∀ rs : List (List Str),
    keepRows w rs = rs.filter fun r => decide (r.length ≤ w) := by
  intro rs
  induction rs with
  | nil => rfl
  | cons r rs ih =>
      by_cases h : w < r.length
      · have : ¬ r.length ≤ w := by omega
        simp [keepRows, h, List.filter_cons, this, ih]
      · have : r.length ≤ w := by omega
        simp [keepRows, h, List.filter_cons, this, ih]

theorem keepRows_length_le (w : Nat) (rs : List (List Str)) :
    (keepRows w rs).length ≤ rs.length := by
  rw [keepRows_eq_filter]
  exact List.length_filter_le _ rs

/-- `process_visual_grid` with the header checkbox off and newline cleaning
on, on a non-empty extraction: the padded rows, each cell cleaned. -/
theorem process_visual_grid_no_header_clean {rows : List (List Cell)}
    (h : rows ≠ []) :
    process_visual_grid false true rows =
      some ⟨none, rows.map fun r => (padRow (tableWidth rows) r).map cleanCell⟩ := by
  have hE : rows.isEmpty = false := by simpa [List.isEmpty_iff] using h
  simp [process_visual_grid, hE, List.map_map, Function.comp_def]

/-- `process_visual_grid` with the header checkbox on, on a non-empty
extraction: the padded first row becomes the column labels unchanged, the
remaining padded rows the data (cleaned when the cleaning checkbox is on). -/
theorem process_visual_grid_header {rows : List (List Cell)} (clean : Bool)
    (h : rows ≠ []) :
    process_visual_grid true clean rows =
      some ⟨some (padRow (tableWidth rows) (rows.headD [])),
            if clean then ((rows.map (padRow (tableWidth rows))).tail).map (List.map cleanCell)
            else (rows.map (padRow (tableWidth rows))).tail⟩ := by
  cases rows with
  | nil => cases h rfl
  | cons r rs => simp [process_visual_grid]

/-! ## Claims -/

/-- C5: `locateStart(text, marker)` returns `text` unchanged when the
marker is `None`, empty, or does not occur in `text` as a literal
substring; in the not-found case the non-fatal warning flag is set
(`st.warning`, not `st.error`). -/
theorem c5_locateStart_unchanged (text m : Str) (hne : m ≠ [])
    (hnotin : ¬ m <:+: text) :
    locateStart text none = (text, false) ∧
    locateStart text (some []) = (text, false) ∧
    locateStart text (some m) = (text, true) := by
  refine ⟨rfl, by simp [locateStart], ?_⟩
  have hnone : findSub m text = none := by
    cases hx : findSub m text with
    | none => rfl
    | some i =>
        have hp : m <+: text.drop i :=
          List.isPrefixOf_iff_prefix.mp (findSub_isPrefixOf hx)
        exact absurd (infix_of_prefix_drop i hp) hnotin
  simp [locateStart, hne, hnone]

theorem c5_locateStart_unchanged_witness :
    (['z'] : Str) ≠ [] ∧ ¬ (['z'] : Str) <:+: ['h', 'e', 'l', 'l', 'o'] ∧
    (locateStart ['h', 'e', 'l', 'l', 'o'] none = (['h', 'e', 'l', 'l', 'o'], false) ∧
     locateStart ['h', 'e', 'l', 'l', 'o'] (some []) = (['h', 'e', 'l', 'l', 'o'], false) ∧
     locateStart ['h', 'e', 'l', 'l', 'o'] (some ['z']) = (['h', 'e', 'l', 'l', 'o'], true)) :=
  ⟨by decide, by decide, c5_locateStart_unchanged _ _ (by decide) (by decide)⟩

/-- C6: when the non-empty marker occurs in `text`, `locateStart` returns
the suffix of `text` beginning at the first occurrence of the marker
(found by literal, case-sensitive substring search), marker included, and
no warning is emitted. -/
theorem c6_locateStart_found (text m : Str) (hne : m ≠ []) (hin : m <:+: text) :
    ∃ i, findSub m text = some i ∧
      locateStart text (some m) = (text.drop i, false) ∧
      m <+: text.drop i ∧
      (∀ j, j < i → ¬ m <+: text.drop j) ∧
      text.drop i <:+ text := by
  obtain ⟨k, hk⟩ := prefix_drop_of_infix hin
  cases hx : findSub m text with
  | none =>
      have h1 : m.isPrefixOf (text.drop k) = false := findSub_none hx k
      have h2 : m.isPrefixOf (text.drop k) = true := List.isPrefixOf_iff_prefix.mpr hk
      rw [h1] at h2
      cases h2
  | some i =>
      refine ⟨i, rfl, ?_, ?_, ?_, List.drop_suffix i text⟩
      · simp [locateStart, hne, hx]
      · exact List.isPrefixOf_iff_prefix.mp (findSub_isPrefixOf hx)
      · intro j hj hpre
        have hb : m.isPrefixOf (text.drop j) = true := List.isPrefixOf_iff_prefix.mpr hpre
        rw [findSub_min hx j hj] at hb
        cases hb

theorem c6_locateStart_found_witness :
    (['b'] : Str) ≠ [] ∧ (['b'] : Str) <:+: ['a', 'b', 'c'] ∧
    (∃ i, findSub ['b'] ['a', 'b', 'c'] = some i ∧
      locateStart ['a', 'b', 'c'] (some ['b']) = (List.drop i ['a', 'b', 'c'], false) ∧
      ['b'] <+: List.drop i ['a', 'b', 'c'] ∧
      (∀ j, j < i → ¬ ['b'] <+: List.drop j ['a', 'b', 'c']) ∧
      List.drop i ['a', 'b', 'c'] <:+ ['a', 'b', 'c']) :=
  ⟨by decide, by decide, c6_locateStart_found _ _ (by decide) (by decide)⟩

/-- C7: `locateStart` is idempotent, warning flag included: applying it
again to its own output (for the same marker) changes nothing. -/
theorem c7_locateStart_idempotent (text : Str) (marker : Option Str) :
    locateStart (locateStart text marker).1 marker = locateStart text marker := by
  cases marker with
  | none => rfl
  | some m =>
      by_cases hm : m = []
      · simp [locateStart, hm]
      · cases hx : findSub m text with
        | none => simp [locateStart, hm, hx]
        | some i =>
            have h0 : findSub m (text.drop i) = some 0 :=
              findSub_of_isPrefixOf (findSub_isPrefixOf hx)
            simp [locateStart, hm, hx, h0]

/-- C1 counterexample: on the empty extraction `[]` the code returns
`None` — no table at all — rather than a table with the input's (zero)
row count, whichever way the header checkbox is set. -/
theorem c1_counterexample :
    (¬ ∃ df, process_visual_grid false true [] = some df) ∧
    (¬ ∃ df, process_visual_grid true true [] = some df) := by
  constructor <;> rintro ⟨df, hdf⟩ <;> simp [process_visual_grid] at hdf

/-- C1 (amended): for every NON-EMPTY extraction, grid-mode normalization
with the header option off and newline cleaning on returns a table with
exactly as many rows as the input, in the same order (row `i` of the
output is row `i` of the input, padded and cleaned), and no string cell of
the output contains a newline character. -/
theorem c1_grid_row_preservation (rows : List (List Cell)) (h : rows ≠ []) :
    ∃ df, process_visual_grid false true rows = some df ∧
      df.data.length = rows.length ∧
      (∀ i, i < rows.length →
        df.data.getD i [] = (padRow (tableWidth rows) (rows.getD i [])).map cleanCell) ∧
      (∀ row ∈ df.data, ∀ cell ∈ row, ∀ s, cell = some s → '\n' ∉ s) := by
  refine ⟨_, process_visual_grid_no_header_clean h, by simp, ?_, ?_⟩
  · intro i hi
    rw [List.getD_eq_getElem _ _ (by simpa using hi), List.getD_eq_getElem _ _ hi,
      List.getElem_map]
  · intro row hrow cell hcell s hs
    subst hs
    rcases List.mem_map.mp hrow with ⟨r, _, hrr⟩
    subst hrr
    rcases List.mem_map.mp hcell with ⟨c, _, hcc⟩
    cases c with
    | none => simp [cleanCell] at hcc
    | some t =>
        simp only [cleanCell, Option.map_some', Option.some.injEq] at hcc
        subst hcc
        exact not_mem_replaceNl t

theorem c1_grid_row_preservation_witness :
    ([[(some ['A', '\n', 'B'] : Cell)]] : List (List Cell)) ≠ [] ∧
    (∃ df, process_visual_grid false true [[some ['A', '\n', 'B']]] = some df ∧
      df.data.length = ([[(some ['A', '\n', 'B'] : Cell)]] : List (List Cell)).length ∧
      (∀ i, i < ([[(some ['A', '\n', 'B'] : Cell)]] : List (List Cell)).length →
        df.data.getD i [] =
          (padRow (tableWidth [[some ['A', '\n', 'B']]])
            (([[(some ['A', '\n', 'B'] : Cell)]] : List (List Cell)).getD i [])).map cleanCell) ∧
      (∀ row ∈ df.data, ∀ cell ∈ row, ∀ s, cell = some s → '\n' ∉ s)) :=
  ⟨by decide, c1_grid_row_preservation _ (by decide)⟩

/-- C2 counterexample: on the claim's own example
`[["A", "B\nC"], [None, "D"]]` (header off, cleaning on) the absent cell
stays `None` — it is not normalized to the empty string — and on
`[[" A "]]` the surrounding whitespace survives: no trimming happens. -/
theorem c2_counterexample :
    process_visual_grid false true
        [[some ['A'], some ['B', '\n', 'C']], [none, some ['D']]] =
      some ⟨none, [[some ['A'], some ['B', ' ', 'C']], [none, some ['D']]]⟩ ∧
    ([[some ['A'], some ['B', ' ', 'C']], [(none : Cell), some ['D']]] ≠
      [[some ['A'], some ['B', ' ', 'C']], [some ([] : Str), some ['D']]]) ∧
    process_visual_grid false true [[some [' ', 'A', ' ']]] =
      some ⟨none, [[some [' ', 'A', ' ']]]⟩ ∧
    ([' ', 'A', ' '] ≠ ['A']) :=
  ⟨by decide, by decide, by decide, by decide⟩

/-- C2 (amended): grid-mode normalization (header off, cleaning on) maps
each cell of each input row position-wise: an absent cell stays absent
(it becomes an empty spreadsheet cell only at export), and a present cell
becomes its text with every newline replaced by a single space — no
leading/trailing whitespace trimming. -/
theorem c2_cell_cleaning (rows : List (List Cell)) (i j : Nat)
    (hi : i < rows.length) (hj : j < (rows.getD i []).length) :
    ∃ df, process_visual_grid false true rows = some df ∧
      (df.data.getD i []).getD j none =
        Option.map replaceNl ((rows.getD i []).getD j none) := by
  have hne : rows ≠ [] := by
    intro hn
    rw [hn] at hi
    simp at hi
  refine ⟨_, process_visual_grid_no_header_clean hne, ?_⟩
  have hi' : i < (rows.map fun r => (padRow (tableWidth rows) r).map cleanCell).length := by
    simpa using hi
  rw [List.getD_eq_getElem _ _ hi', List.getElem_map, List.getD_eq_getElem _ _ hi]
  rw [List.getD_eq_getElem _ _ hi] at hj
  have hj' : j < ((padRow (tableWidth rows) rows[i]).map cleanCell).length := by
    simp only [List.length_map, padRow, List.length_append, List.length_replicate]
    omega
  rw [List.getD_eq_getElem _ _ hj', List.getD_eq_getElem _ _ hj, List.getElem_map]
  simp only [padRow]
  rw [List.getElem_append_left hj]
  rfl

theorem c2_cell_cleaning_witness :
    (1 < ([[some ['A'], some ['B', '\n', 'C']], [(none : Cell), some ['D']]] :
        List (List Cell)).length) ∧
    (0 < (([[some ['A'], some ['B', '\n', 'C']], [(none : Cell), some ['D']]] :
        List (List Cell)).getD 1 []).length) ∧
    (∃ df, process_visual_grid false true
        [[some ['A'], some ['B', '\n', 'C']], [none, some ['D']]] = some df ∧
      (df.data.getD 1 []).getD 0 none =
        Option.map replaceNl
          ((([[some ['A'], some ['B', '\n', 'C']], [(none : Cell), some ['D']]] :
            List (List Cell)).getD 1 []).getD 0 none)) :=
  ⟨by decide, by decide, c2_cell_cleaning _ 1 0 (by decide) (by decide)⟩

/-- C10 counterexample: with jagged extracted rows `[["A"], ["B","C"]]`
and the header option on, the column labels are the padded first row
`["A", NaN]` — not exactly the cells of the first extracted row `["A"]`. -/
theorem c10_counterexample :
    process_visual_grid true true [[some ['A']], [some ['B'], some ['C']]] =
      some ⟨some [some ['A'], none], [[some ['B'], some ['C']]]⟩ ∧
    ([some ['A'], (none : Cell)] ≠ [some ['A']]) :=
  ⟨by decide, by decide⟩

/-- C10 (amended): in grid mode with the header option on, for every
non-empty extraction the returned table has exactly one fewer data row
than the input, and its column labels are the first extracted row padded
with absent cells to the table width — taken before newline cleaning, so
the labels keep their newlines even when cleaning is on. -/
theorem c10_header_mode (clean : Bool) (rows : List (List Cell)) (h : rows ≠ []) :
    ∃ df, process_visual_grid true clean rows = some df ∧
      df.data.length = rows.length - 1 ∧
      df.columns = some (padRow (tableWidth rows) (rows.headD [])) := by
  refine ⟨_, process_visual_grid_header clean h, ?_, rfl⟩
  cases clean <;> simp

theorem c10_header_mode_witness :
    ([[some ['A'], some ['B', '\n', 'C']], [some ['x'], some ['y']]] :
        List (List Cell)) ≠ [] ∧
    (∃ df, process_visual_grid true true
        [[some ['A'], some ['B', '\n', 'C']], [some ['x'], some ['y']]] = some df ∧
      df.data.length =
        ([[some ['A'], some ['B', '\n', 'C']], [some ['x'], some ['y']]] :
          List (List Cell)).length - 1 ∧
      df.columns = some (padRow
        (tableWidth [[some ['A'], some ['B', '\n', 'C']], [some ['x'], some ['y']]])
        (([[some ['A'], some ['B', '\n', 'C']], [some ['x'], some ['y']]] :
          List (List Cell)).headD []))) :=
  ⟨by decide, c10_header_mode true _ (by decide)⟩

/-- Inside a quoted field the tokenizer consumes every non-quote character
into the field, newlines and separators included. -/
theorem tok_inQuoted_cons {sep quote c : Char} (hc : c ≠ quote) (field : Str)
    (record : List Str) (cs : Str) :
    tok sep quote .inQuoted field record (c :: cs) =
      tok sep quote .inQuoted (field ++ [c]) record cs := by
  simp [tok, hc]

theorem tok_inQuoted_append {sep quote : Char} : ∀ {f : Str},
    (∀ c ∈ f, c ≠ quote) → ∀ (field : Str) (record : List Str) (rest : Str),
    tok sep quote .inQuoted field record (f ++ rest) =
      tok sep quote .inQuoted (field ++ f) record rest := by
  intro f
  induction f with
  | nil => intro _ field record rest; simp
  | cons c cf ih =>
      intro hf field record rest
      rw [List.cons_append, tok_inQuoted_cons (hf c (by simp)) field record (cf ++ rest),
        ih (fun x hx => hf x (by simp [hx])) (field ++ [c]) record rest,
        List.append_assoc]
      rfl

/-- C4: standard CSV quoting in the delimited-text parser: a field wrapped
in the quote character is read as one single field even when it contains
the delimiter — generally for any quote-free field content `f` in
`a,"f",d`, and in particular on the claim's example `a,"b,c",d`. -/
theorem c4_quoted_field (f : Str) (hf : ∀ c ∈ f, c ≠ '"') :
    parseRecords ',' '"' (('a' :: ',' :: '"' :: f) ++ ('"' :: ',' :: ['d'])) =
      [[['a'], f, ['d']]] ∧
    parseRecords ',' '"' ['a', ',', '"', 'b', ',', 'c', '"', ',', 'd'] =
      [[['a'], ['b', ',', 'c'], ['d']]] := by
  constructor
  · have h1 : parseRecords ',' '"' (('a' :: ',' :: '"' :: f) ++ ('"' :: ',' :: ['d'])) =
        tok ',' '"' .inQuoted [] [['a']] (f ++ ('"' :: ',' :: ['d'])) := rfl
    rw [h1, tok_inQuoted_append hf [] [['a']] ('"' :: ',' :: ['d'])]
    rfl
  · decide

theorem c4_quoted_field_witness :
    (∀ c ∈ (['b', ',', 'c'] : Str), c ≠ '"') ∧
    (parseRecords ',' '"'
        (('a' :: ',' :: '"' :: ['b', ',', 'c']) ++ ('"' :: ',' :: ['d'])) =
      [[['a'], ['b', ',', 'c'], ['d']]] ∧
    parseRecords ',' '"' ['a', ',', '"', 'b', ',', 'c', '"', ',', 'd'] =
      [[['a'], ['b', ',', 'c'], ['d']]]) :=
  ⟨by decide, c4_quoted_field _ (by decide)⟩

/-- C9: in raw-text/CSV mode the first tokenized record is always consumed
as the header row (there is no option to keep it as data): the returned
column labels are the cleaned cells of that first record, and the data
rows are built from the remaining records only — never more of them than
there are remaining records. -/
theorem c9_header_consumed (sep_label : Str) (quote : Char) (text : Str)
    (hd : List Str) (tl : List (List Str))
    (h : parseRecords (sep_map sep_label) quote text = hd :: tl) :
    ∃ df, (process_raw_text sep_label quote none text).1 = some df ∧
      df.columns = some (hd.map fun s => some (trim (replaceNl s))) ∧
      df.data = (buildRows hd.length tl).map (List.map (Option.map replaceNl)) ∧
      df.data.length ≤ tl.length := by
  have hread : read_csv (sep_map sep_label) quote text =
      some ⟨some (hd.map some), buildRows hd.length tl⟩ := by
    unfold read_csv
    rw [h]
  have hp : process_raw_text sep_label quote none text =
      (some ⟨some ((hd.map some).map (Option.map fun s => trim (replaceNl s))),
             (buildRows hd.length tl).map (List.map (Option.map replaceNl))⟩, false) := by
    unfold process_raw_text
    simp only [locateStart, hread, Option.map_some']
  refine ⟨_, by rw [hp], ?_, rfl, ?_⟩
  · show some ((hd.map some).map (Option.map fun s => trim (replaceNl s))) = _
    simp [List.map_map, Function.comp_def]
  · show ((buildRows hd.length tl).map (List.map (Option.map replaceNl))).length ≤ _
    rw [List.length_map]
    cases tl with
    | nil => simp [buildRows]
    | cons first rs =>
        simp only [buildRows, List.length_map, List.length_cons]
        have := keepRows_length_le (max hd.length first.length) rs
        omega

theorem c9_header_consumed_witness :
    parseRecords (sep_map ", (Comma)".toList) '"'
        "Name,Amount\nAlice,10\nBob,2\n".toList =
      ["Name".toList, "Amount".toList] ::
        [["Alice".toList, "10".toList], ["Bob".toList, "2".toList]] ∧
    (∃ df, (process_raw_text ", (Comma)".toList '"' none
        "Name,Amount\nAlice,10\nBob,2\n".toList).1 = some df ∧
      df.columns = some ((["Name".toList, "Amount".toList] : List Str).map
        fun s => some (trim (replaceNl s))) ∧
      df.data = (buildRows (["Name".toList, "Amount".toList] : List Str).length
          [["Alice".toList, "10".toList], ["Bob".toList, "2".toList]]).map
        (List.map (Option.map replaceNl)) ∧
      df.data.length ≤ ([["Alice".toList, "10".toList],
        ["Bob".toList, "2".toList]] : List (List Str)).length) :=
  ⟨by decide, c9_header_consumed _ '"' _ _ _ (by decide)⟩

/-- C3 counterexample: neither empty input yields an empty CleanedTable.
The empty extraction `[]` makes `process_visual_grid` return `None`
outright, and the empty text makes `pd.read_csv` raise `EmptyDataError`,
caught and converted to `None` — in both cases no table (empty or
otherwise) is produced. -/
theorem c3_counterexample :
    (¬ ∃ df, process_visual_grid true true [] = some df ∧ df.data = []) ∧
    (¬ ∃ df, (process_raw_text ", (Comma)".toList '"' none []).1 = some df ∧
      df.data = []) := by
  constructor
  · rintro ⟨df, hdf, -⟩
    have : process_visual_grid true true [] = none := rfl
    rw [this] at hdf
    cases hdf
  · rintro ⟨df, hdf, -⟩
    have : (process_raw_text ", (Comma)".toList '"' none []).1 = none := rfl
    rw [this] at hdf
    cases hdf

/-- C3 (amended): empty RawTableRows (`[]`) under grid mode (any checkbox
settings) and empty RawText (`""`) under delimited-text parsing both make
the processing function return `None` — no table, rather than a zero-row
table — and the caller's `df_result is not None and not df_result.empty`
check then reports the EmptyResult warning. -/
theorem c3_empty_inputs (h c : Bool) :
    process_visual_grid h c [] = none ∧
    (process_raw_text ", (Comma)".toList '"' none []).1 = none ∧
    showsEmptyWarning (process_visual_grid h c []) = true ∧
    showsEmptyWarning ((process_raw_text ", (Comma)".toList '"' none []).1) = true :=
  ⟨rfl, rfl, rfl, rfl⟩
